import Mathlib

/-!
Verification development for the SUC Route Viewer frontend.

The TypeScript sources (`src/App.tsx`, `src/components/MultiRouteMap.tsx`,
`src/components/ElevationChart.tsx`, `src/data/loadEvents.ts`) are shallowly
embedded below.  JavaScript numbers are modelled as exact rationals, with
`Option ℚ` (`JsNum`) when the code's `Number.isFinite` guards make the
non-finite values (`NaN`, `±Infinity`) observable.  React state updates are
modelled as explicit state-transition functions, and effects that mutate the
MapLibre surface are modelled as functions from the relevant inputs to the
emitted marker data / camera commands / layer-set updates.
-/

set_option maxHeartbeats 1000000

namespace SUC

/-! ### JavaScript number and array primitives -/

/-- A JavaScript number: `some q` is the finite value `q`; `none` stands for
the non-finite values (`NaN`, `Infinity`, `-Infinity`) that the sources guard
against with `Number.isFinite`. -/
abbrev JsNum := Option ℚ

/-- A `[lon, lat]` coordinate pair as read from route GeoJSON. -/
abbrev Coord := JsNum × JsNum

/-- Embed a finite coordinate pair into `Coord`. -/
def fin2 (c : ℚ × ℚ) : Coord := (some c.1, some c.2)

/-- `Number.isFinite`. -/
def jsIsFinite (x : JsNum) : Bool := x.isSome

/-- JavaScript array indexing `a[i]` with a possibly negative index:
negative or out-of-range indices yield `undefined` (here `none`). -/
def jsIndex (l : List α) (i : ℤ) : Option α :=
  if 0 ≤ i then l[i.toNat]? else none

/-- `a + (b - a) * t` on JS numbers: if either endpoint is non-finite the
result is non-finite (for these operations a non-finite operand always yields
`NaN` or `±Infinity`). -/
def jsLerp (a b : JsNum) (t : ℚ) : JsNum :=
  match a, b with
  | some a, some b => some (a + (b - a) * t)
  | _, _ => none

/-- JavaScript `x > y`: comparisons involving `NaN`/`undefined` are false. -/
def jsGt (a b : JsNum) : Bool :=
  match a, b with
  | some a, some b => decide (b < a)
  | _, _ => false

/-- JavaScript `x || d` for a numeric `x`: the falsy numbers (`0`, `NaN`,
`undefined`) are replaced by the default. -/
def jsOr (x : JsNum) (d : ℚ) : ℚ :=
  match x with
  | some q => if q = 0 then d else q
  | none => d

/-- `Math.min` on JS numbers (`NaN` propagates). -/
def jsMin (a b : JsNum) : JsNum :=
  match a, b with
  | some a, some b => some (min a b)
  | _, _ => none

/-- `Math.max` on JS numbers (`NaN` propagates). -/
def jsMax (a b : JsNum) : JsNum :=
  match a, b with
  | some a, some b => some (max a b)
  | _, _ => none

/-- Three-way code-point comparison of character lists; used to model
`String.prototype.localeCompare` on the ASCII identifiers appearing in the
catalog (for which locale collation agrees with code-point order). -/
def cmpChars : List Char → List Char → Ordering
  | [], [] => Ordering.eq
  | [], _ :: _ => Ordering.lt
  | _ :: _, [] => Ordering.gt
  | a :: as, b :: bs =>
    if a < b then Ordering.lt
    else if b < a then Ordering.gt
    else cmpChars as bs

/-- Three-way string comparison (see `cmpChars`). -/
def cmpStr (s t : String) : Ordering :=
  cmpChars s.data t.data

/-- `s.localeCompare(t) <= 0`, as a Bool. -/
def strLeB (s t : String) : Bool :=
  match cmpStr s t with
  | Ordering.gt => false
  | _ => true

/-! ### Data model (`src/data/loadEvents.ts`) -/

/-- A GeoJSON geometry, restricted to the cases the viewer inspects. -/
inductive Geom
  | lineString (coords : List Coord)
  | multiLineString (lines : List (List Coord))
  | point (c : Coord)
deriving DecidableEq

/-- `SUCRoute` (fields not consulted by the verified code paths are omitted). -/
structure SUCRoute where
  id : String
  label : String
  distanceMi : JsNum
  distanceSeries : List ℚ
  elevationSeries : List ℚ
  geojson : Option (List Geom)
deriving DecidableEq

/-- `SUCEvent` (metadata fields not consulted by the verified code paths are
omitted). -/
structure SUCEvent where
  eventId : String
  routes : List SUCRoute
deriving DecidableEq

/-- `PlaybackState`: the `playbackProgress` / `isPlaybackOn` React state pair
of `App`. -/
structure PlaybackState where
  progress : ℚ
  running : Bool
deriving DecidableEq

/-- The slice of `App` state the verified handlers read and write. -/
structure AppState where
  events : List SUCEvent
  activeEventId : Option String
  selectedRouteId : Option String
  playback : PlaybackState
deriving DecidableEq

/-! ### Catalog loader (`src/data/loadEvents.ts`) -/

/-- Numeric value of a digit list, as computed by `parseInt` on the digit-only
string produced by `eventId.replace(/\D/g, "")`. -/
def digitsToNat (ds : List Char) : ℕ :=
  ds.foldl (fun acc c => acc * 10 + (c.toNat - 48)) 0

/-- `extractEventNumber`: strip non-digits; `null` when nothing remains. -/
def extractEventNumber (eventId : String) : Option ℕ :=
  let digits := eventId.toList.filter Char.isDigit
  if digits.isEmpty then none else some (digitsToNat digits)

/-- Route comparator of `loadSUCEvents`: ascending by `distanceMi` with
non-finite distances treated as `Infinity` (hence last), ties broken by
`label.localeCompare`. -/
def cmpRoute (a b : SUCRoute) : Ordering :=
  match a.distanceMi, b.distanceMi with
  | some qa, some qb =>
    if qa = qb then cmpStr a.label b.label
    else if qa < qb then Ordering.lt else Ordering.gt
  | some _, none => Ordering.lt
  | none, some _ => Ordering.gt
  | none, none => cmpStr a.label b.label

/-- `cmpRoute a b <= 0`. -/
def routeLE (a b : SUCRoute) : Bool :=
  match cmpRoute a b with
  | Ordering.gt => false
  | _ => true

/-- Event comparator of `loadSUCEvents`: newest first by the numeric portion
of `eventId`, falling back to reverse lexicographic comparison of ids. -/
def cmpEvent (a b : SUCEvent) : Ordering :=
  match extractEventNumber a.eventId, extractEventNumber b.eventId with
  | some na, some nb =>
    if na = nb then cmpStr b.eventId a.eventId
    else if nb < na then Ordering.lt else Ordering.gt
  | _, _ => cmpStr b.eventId a.eventId

/-- `cmpEvent a b <= 0`. -/
def eventLE (a b : SUCEvent) : Bool :=
  match cmpEvent a b with
  | Ordering.gt => false
  | _ => true

/-- Insert `x` into `l` before the first element `y` with `le x y`. -/
def insertLe (le : α → α → Bool) (x : α) : List α → List α
  | [] => [x]
  | y :: ys => if le x y then x :: y :: ys else y :: insertLe le x ys

/-- Model of `Array.prototype.sort(cmp)` with `le a b := cmp a b <= 0`:
ECMAScript guarantees a permutation that is pairwise ordered by the comparator
whenever the comparator is consistent, which any insertion sort realises. -/
def sortByJs (le : α → α → Bool) (l : List α) : List α :=
  l.foldr (insertLe le) []

/-- One row of `/events.json` together with the `loadRoute` result for each of
its route references (`none` models a failed fetch/parse, which the loader
skips). -/
structure RawEventRow where
  eventId : String
  routes : List (Option SUCRoute)
deriving DecidableEq

/-- Pure core of `loadSUCEvents`: per event, drop failed routes and sort the
rest with the route comparator; then sort the events with the event
comparator. -/
def loadSUCEvents (rows : List RawEventRow) : List SUCEvent :=
  let catalog := rows.map (fun row =>
    { eventId := row.eventId
      routes := sortByJs routeLE (row.routes.filterMap id) : SUCEvent })
  sortByJs eventLE catalog

/-! ### `src/App.tsx` helpers and handlers -/

/-- `thinCoordinates`: keep every `step`-th vertex; lists no longer than
`step` are returned unchanged.  The source guards the final push with
`result[result.length - 1] !== last`, a reference comparison between elements
of the same array, which holds exactly when the last kept index is not the
final index. -/
def thinCoordinates (coords : List Coord) (step : ℕ) : List Coord :=
  if coords.length ≤ step then coords
  else
    let result :=
      ((List.range coords.length).filter (fun i => i % step = 0)).map
        (fun i => coords.getD i (none, none))
    if (coords.length - 1) % step = 0 then result
    else result ++ [coords.getD (coords.length - 1) (none, none)]

/-- `pickDefaultRoute`: prefer the first `"XL"` route, else the first route of
maximal `distanceMi` (the `reduce` keeps the accumulator on ties and on
comparisons involving non-finite distances). -/
def pickDefaultRoute (event : Option SUCEvent) : Option SUCRoute :=
  match event with
  | none => none
  | some ev =>
    match ev.routes with
    | [] => none
    | r0 :: rest =>
      match (r0 :: rest).find? (fun r => r.label == "XL") with
      | some xl => some xl
      | none =>
        some (rest.foldl (fun best r =>
          if jsGt r.distanceMi best.distanceMi then r else best) r0)

/-- `resetPlayback`: stop and rewind. -/
def resetPlayback : PlaybackState := { progress := 0, running := false }

/-- `handleEventSelect`. -/
def handleEventSelect (s : AppState) (eventId : String) : AppState :=
  let ev := s.events.find? (fun e => e.eventId == eventId)
  let newRouteId := (pickDefaultRoute ev).map (fun r => r.id)
  { s with
    activeEventId := some eventId
    selectedRouteId := newRouteId
    playback := resetPlayback }

/-- `handleRouteSelect`. -/
def handleRouteSelect (s : AppState) (routeId : String) : AppState :=
  { s with selectedRouteId := some routeId, playback := resetPlayback }

/-- `togglePlayback`: no-op without a selected route; starting playback first
rewinds progress to `0`; stopping only clears the running flag. -/
def togglePlayback (s : PlaybackState) (selectedRoute : Option SUCRoute) :
    PlaybackState :=
  match selectedRoute with
  | none => s
  | some _ =>
    if s.running = false then { progress := 0, running := true }
    else { s with running := false }

/-- The three playback speed settings. -/
inductive PlaybackSpeed
  | slow
  | med
  | fast
deriving DecidableEq

/-- `speedMult` of the playback loop effect. -/
def speedMult : PlaybackSpeed → ℚ
  | PlaybackSpeed.slow => 2
  | PlaybackSpeed.med => 1
  | PlaybackSpeed.fast => 1 / 4

/-- One frame of the playback loop (`tick` in `App`): `dt` is the elapsed
wall-clock time in seconds.  The effect schedules frames only while
`isPlaybackOn` holds, so a frame against a non-running state leaves it
unchanged. -/
def tick (s : PlaybackState) (dt : ℚ) (routeDistanceMi : JsNum)
    (speed : PlaybackSpeed) : PlaybackState :=
  if s.running = false then s
  else
    let routeDistance := jsOr routeDistanceMi 1
    let duration := 60 * (routeDistance / 10) * speedMult speed
    let delta := dt / duration
    let next := s.progress + delta
    if 1 ≤ next then { progress := 0, running := false }
    else { s with progress := next }

/-! ### `src/components/MultiRouteMap.tsx` -/

/-- Layer/source ids from the `ID` table. -/
def gpsLayerId : String := "user-location-layer"

def gpsSrcId : String := "user-location"

def playbackLayerId : String := "route-playback-layer"

def playbackSrcId : String := "route-playback"

/-- The id sets of the MapLibre surface. -/
structure MapSurface where
  layers : List String
  sources : List String
deriving DecidableEq

/-- `if (m.getLayer(id)) m.removeLayer(id)`. -/
def removeLayerIf (m : MapSurface) (id : String) : MapSurface :=
  { m with layers := m.layers.filter (fun l => l ≠ id) }

/-- `if (m.getSource(id)) m.removeSource(id)`. -/
def removeSourceIf (m : MapSurface) (id : String) : MapSurface :=
  { m with sources := m.sources.filter (fun l => l ≠ id) }

/-- `cleanupLayerAndSource` of the GPS effect: removes only the GPS layer and
the GPS source. -/
def cleanupLayerAndSource (m : MapSurface) : MapSurface :=
  removeSourceIf (removeLayerIf m gpsLayerId) gpsSrcId

/-- Turn-ON branch of the GPS effect: reset any old GPS layer/source, then add
the GPS source and layer if absent. -/
def gpsEnableBranch (m : MapSurface) : MapSurface :=
  let m1 := cleanupLayerAndSource m
  let m2 :=
    if gpsSrcId ∈ m1.sources then m1
    else { m1 with sources := m1.sources ++ [gpsSrcId] }
  if gpsLayerId ∈ m2.layers then m2
  else { m2 with layers := m2.layers ++ [gpsLayerId] }

/-- A `maplibregl.LngLatBounds`. -/
structure BBox where
  west : JsNum
  south : JsNum
  east : JsNum
  north : JsNum
deriving DecidableEq

/-- `new LngLatBounds(c, c)`. -/
def bboxInit (c : Coord) : BBox :=
  { west := c.1, south := c.2, east := c.1, north := c.2 }

/-- `bounds.extend([lng, lat])`. -/
def bboxExtend (b : BBox) (c : Coord) : BBox :=
  { west := jsMin b.west c.1
    south := jsMin b.south c.2
    east := jsMax b.east c.1
    north := jsMax b.north c.2 }

/-- A camera command issued to the map. -/
inductive CameraCmd
  | fitBounds (b : BBox)
  | easeTo (center : ℚ × ℚ)
deriving DecidableEq

/-- `recenterOnSelectedRoute` of the GPS effect: frame the bounding box of the
coordinates of the FIRST feature of the selected route's GeoJSON, provided it
is a non-empty `LineString`; the `reduce` starts from a degenerate box at
`coords[0]` and extends with every vertex. -/
def recenterOnSelectedRoute (selectedRoute : Option SUCRoute) :
    Option CameraCmd :=
  match selectedRoute with
  | none => none
  | some r =>
    match r.geojson with
    | none => none
    | some gs =>
      match gs.head? with
      | some (Geom.lineString cs) =>
        match cs with
        | [] => none
        | c0 :: _ => some (CameraCmd.fitBounds (cs.foldl bboxExtend (bboxInit c0)))
      | _ => none

/-- Turn-OFF branch of the GPS effect: clear the geolocation watch, remove the
GPS layer and source, and recenter on the selected route. -/
def gpsDisableBranch (m : MapSurface) (_watchId : Option ℕ)
    (selectedRoute : Option SUCRoute) :
    MapSurface × Option ℕ × Option CameraCmd :=
  (cleanupLayerAndSource m, none, recenterOnSelectedRoute selectedRoute)

/-- Flattened playback coordinates of effect 3, step 4: concatenate the
coordinates of every `LineString` / `MultiLineString` feature of the selected
route in order. -/
def flattenLineCoords (gs : List Geom) : List Coord :=
  gs.flatMap (fun g =>
    match g with
    | Geom.lineString cs => cs
    | Geom.multiLineString ls => ls.flatMap id
    | Geom.point _ => [])

/-- One feature of the permanent ghost source. -/
structure GhostFeature where
  eventId : String
  coords : List Coord
deriving DecidableEq

/-- The `LineString` features of a route's GeoJSON (the only geometry type the
permanent ghost layer keeps). -/
def routeLineStrings (r : SUCRoute) : List (List Coord) :=
  match r.geojson with
  | none => []
  | some gs =>
    gs.filterMap (fun g =>
      match g with
      | Geom.lineString cs => some cs
      | _ => none)

/-- `permanentRoutesGeoJson` of `App`: every route's `LineString` features
across the whole catalog, thinned with step 5 and tagged with the owning
event's id. -/
def permanentRoutesFeatures (events : List SUCEvent) : List GhostFeature :=
  events.flatMap (fun ev =>
    ev.routes.flatMap (fun r =>
      (routeLineStrings r).map (fun cs =>
        { eventId := ev.eventId, coords := thinCoordinates cs 5 : GhostFeature })))

/-- Effect 2 of `MultiRouteMap`: the ghost layer data, excluding the features
of the active event when there is one. -/
def ghostFeatures (events : List SUCEvent) (activeEventId : Option String) :
    List GhostFeature :=
  let perm := permanentRoutesFeatures events
  match activeEventId with
  | some id => perm.filter (fun f => f.eventId ≠ id)
  | none => perm

/-- Effect 5 of `MultiRouteMap` (playback dot): given the flattened selected
route coordinates, the running flag and the progress value, produce the marker
point written to the playback source (`none` when the frame emits nothing) and
the follow-cam command.  Mirrors the source line by line: the `< 2` guard, the
paused branch pinning the dot to `coords[0]`, the fractional-index
interpolation, the `Number.isFinite` guard dropping the frame, and the
unconditional `easeTo` after a successful emission. -/
def playbackFrame (coords : List Coord) (isPlaybackOn : Bool) (p : ℚ) :
    Option Coord × Option CameraCmd :=
  if coords.length < 2 then (none, none)
  else if isPlaybackOn = false then (jsIndex coords 0, none)
  else
    let total : ℤ := coords.length
    let scaled : ℚ := p * ((coords.length : ℚ) - 1)
    let idx : ℤ := ⌊scaled⌋
    let maxIndex : ℤ := total - 1
    let t : ℚ := scaled - (idx : ℚ)
    match jsIndex coords idx, jsIndex coords (min (idx + 1) maxIndex) with
    | some s, some e =>
      match jsLerp s.1 e.1 t, jsLerp s.2 e.2 t with
      | some lng, some lat =>
        (some (some lng, some lat), some (CameraCmd.easeTo (lng, lat)))
      | _, _ => (none, none)
    | _, _ => (none, none)

/-- The camera command the map issues for a playback frame, as a function of
the full component props.  The live-GPS prop is among the inputs because the
mutual-exclusion claim concerns it; the source effect never reads it, which
the definition makes explicit by ignoring its first argument. -/
def mapFrameCamera (_isLiveGpsOn : Bool) (coords : List Coord)
    (isPlaybackOn : Bool) (p : ℚ) : Option CameraCmd :=
  (playbackFrame coords isPlaybackOn p).2

/-! ### `src/components/ElevationChart.tsx` -/

def METERS_PER_MILE : ℚ := 160934 / 100

def FEET_PER_METER : ℚ := 328084 / 100000

/-- Distance conversion of the chart: meters to miles. -/
def milesFromMeters (m : ℚ) : ℚ := m / METERS_PER_MILE

/-- Elevation conversion of the chart: meters to feet, `Math.round`ed. -/
def feetFromMeters (m : ℚ) : ℚ := (round (m * FEET_PER_METER) : ℤ)

/-- `lerp` helper of `ElevationChart`. -/
def lerp (a b t : ℚ) : ℚ := a + (b - a) * t

/-- The playback-dot dataset of `ElevationChart`: `none` when the series pair
is invalid (too short or mismatched) or the progress is out of `[0,1]`;
otherwise the fractional-index interpolation of the converted series. -/
def elevationChartDot (distanceSeriesM elevationSeriesM : List ℚ) (p : ℚ) :
    Option (ℚ × ℚ) :=
  let distMi := distanceSeriesM.map milesFromMeters
  let elevFt := elevationSeriesM.map feetFromMeters
  if ¬(1 < distMi.length ∧ distMi.length = elevFt.length) then none
  else if 0 ≤ p ∧ p ≤ 1 ∧ 1 < elevFt.length then
    let maxIndex : ℤ := (elevFt.length : ℤ) - 1
    let scaled : ℚ := p * ((elevFt.length : ℚ) - 1)
    let i0 : ℤ := ⌊scaled⌋
    let i1 : ℤ := min (i0 + 1) maxIndex
    let t : ℚ := scaled - (i0 : ℚ)
    let x0 := distMi.getD i0.toNat 0
    let x1 := distMi.getD i1.toNat 0
    let y0 := elevFt.getD i0.toNat 0
    let y1 := elevFt.getD i1.toNat 0
    some (lerp x0 x1 t, lerp y0 y1 t)
  else none

/-! ### Statements taken from the specification's wording

These definitions formalise the spec's description and are compared against
the embedded code above; they are not part of the embedding. -/

/-- The fractional-index bracketing rule as the spec words it: index
`floor (p * (n-1))`, partner `min (index+1) (n-1)`, fraction
`p * (n-1) - floor (p * (n-1))`. -/
def fracBracket (n : ℕ) (p : ℚ) : ℕ × ℕ × ℚ :=
  let scaled : ℚ := p * ((n : ℚ) - 1)
  let i0 : ℕ := (⌊scaled⌋).toNat
  (i0, min (i0 + 1) (n - 1), scaled - ((⌊scaled⌋ : ℤ) : ℚ))

/-- The interpolated point the spec describes for a vertex list and a progress
value: linear interpolation between the two bracketing vertices. -/
def specInterp (cs : List (ℚ × ℚ)) (p : ℚ) : ℚ × ℚ :=
  match fracBracket cs.length p with
  | (i0, i1, t) =>
    let a := cs.getD i0 (0, 0)
    let b := cs.getD i1 (0, 0)
    (lerp a.1 b.1 t, lerp a.2 b.2 t)

/-- The chart marker the spec describes for a converted distance series `xs`
and elevation series `ys`: linear interpolation of both series between the two
bracketing samples, using the same `fracBracket` rule as the map dot. -/
def specChartInterp (xs ys : List ℚ) (p : ℚ) : ℚ × ℚ :=
  match fracBracket ys.length p with
  | (i0, i1, t) =>
    (lerp (xs.getD i0 0) (xs.getD i1 0) t, lerp (ys.getD i0 0) (ys.getD i1 0) t)

/-- Coordinate thinning as the claim words it: for lists longer than the step
5, exactly the vertices at indices 0, 5, 10, ... plus the final vertex;
shorter lists unchanged. -/
def specThin5 (cs : List Coord) : List Coord :=
  if cs.length ≤ 5 then cs
  else
    ((List.range cs.length).filter (fun i => i % 5 = 0 ∨ i = cs.length - 1)).map
      (fun i => cs.getD i (none, none))

/-- Bounding box of a list of finite vertices, as the claim words it. -/
def specVertexBBox : List (ℚ × ℚ) → Option BBox
  | [] => none
  | c :: cs =>
    some
      { west := some ((cs.map Prod.fst).foldl min c.1)
        south := some ((cs.map Prod.snd).foldl min c.2)
        east := some ((cs.map Prod.fst).foldl max c.1)
        north := some ((cs.map Prod.snd).foldl max c.2) }

/-- Event order as the claim words it: `a` may precede `b` when both ids have
numeric portions and they differ and `a`'s is larger, and otherwise when
`b.eventId` is lexicographically at most `a.eventId`. -/
def eventClaimOk (a b : SUCEvent) : Bool :=
  match extractEventNumber a.eventId, extractEventNumber b.eventId with
  | some na, some nb => if na = nb then strLeB b.eventId a.eventId else decide (nb < na)
  | _, _ => strLeB b.eventId a.eventId

/-- Route order as the claim words it: ascending finite `distanceMi`,
non-finite distances last, ties broken by lexicographic label comparison. -/
def routeClaimOk (a b : SUCRoute) : Bool :=
  match a.distanceMi, b.distanceMi with
  | some qa, some qb => if qa = qb then strLeB a.label b.label else decide (qa < qb)
  | some _, none => true
  | none, some _ => false
  | none, none => strLeB a.label b.label

end SUC

namespace SUC

/-! ### Generic lemmas about the sort model -/

theorem mem_insertLe (le : α → α → Bool) (x a : α) (l : List α) :
    a ∈ insertLe le x l ↔ a = x ∨ a ∈ l := by
  induction l with
  | nil => simp [insertLe]
  | cons y ys ih =>
    simp only [insertLe]
    split
    · simp [List.mem_cons]
    · simp only [List.mem_cons, ih]
      tauto

theorem perm_insertLe (le : α → α → Bool) (x : α) (l : List α) :
    (insertLe le x l).Perm (x :: l) := by
  induction l with
  | nil => exact List.Perm.refl _
  | cons y ys ih =>
    simp only [insertLe]
    split
    · exact List.Perm.refl _
    · exact (List.Perm.cons y ih).trans (List.Perm.swap x y ys)

theorem perm_sortByJs (le : α → α → Bool) (l : List α) :
    (sortByJs le l).Perm l := by
  induction l with
  | nil => exact List.Perm.refl _
  | cons x xs ih =>
    simp only [sortByJs, List.foldr_cons]
    exact (perm_insertLe le x _).trans (List.Perm.cons x ih)

theorem mem_sortByJs (le : α → α → Bool) (a : α) (l : List α) :
    a ∈ sortByJs le l ↔ a ∈ l :=
  (perm_sortByJs le l).mem_iff

theorem pairwise_insertLe (le : α → α → Bool) (x : α) (l : List α)
    (h : l.Pairwise (fun a b => le a b = true))
    (total : ∀ b ∈ l, le x b = true ∨ le b x = true)
    (trans : ∀ b ∈ l, ∀ c ∈ l, le x b = true → le b c = true → le x c = true) :
    (insertLe le x l).Pairwise (fun a b => le a b = true) := by
  induction l with
  | nil => simp [insertLe]
  | cons y ys ih =>
    simp only [insertLe]
    split
    · rename_i hxy
      refine List.Pairwise.cons ?_ h
      intro z hz
      rcases List.mem_cons.mp hz with rfl | hz
      · exact hxy
      · have hyz := (List.pairwise_cons.mp h).1 z hz
        exact trans y (List.mem_cons_self y ys) z (List.mem_cons_of_mem y hz) hxy hyz
    · rename_i hxy
      have hyx : le y x = true := by
        rcases total y (List.mem_cons_self y ys) with h1 | h1
        · exact absurd h1 hxy
        · exact h1
      refine List.Pairwise.cons ?_ ?_
      · intro z hz
        rcases (mem_insertLe le x z ys).mp hz with rfl | hz
        · exact hyx
        · exact (List.pairwise_cons.mp h).1 z hz
      · exact ih (List.pairwise_cons.mp h).2
          (fun b hb => total b (List.mem_cons_of_mem y hb))
          (fun b hb c hc => trans b (List.mem_cons_of_mem y hb) c (List.mem_cons_of_mem y hc))

theorem pairwise_sortByJs (le : α → α → Bool) (l : List α)
    (total : ∀ a ∈ l, ∀ b ∈ l, le a b = true ∨ le b a = true)
    (trans : ∀ a ∈ l, ∀ b ∈ l, ∀ c ∈ l, le a b = true → le b c = true → le a c = true) :
    (sortByJs le l).Pairwise (fun a b => le a b = true) := by
  induction l with
  | nil => simp [sortByJs]
  | cons x xs ih =>
    simp only [sortByJs, List.foldr_cons]
    have hxmem : x ∈ x :: xs := List.mem_cons_self x xs
    refine pairwise_insertLe le x _ ?_ ?_ ?_
    · exact ih (fun a ha b hb => total a (List.mem_cons_of_mem x ha) b (List.mem_cons_of_mem x hb))
        (fun a ha b hb c hc => trans a (List.mem_cons_of_mem x ha) b (List.mem_cons_of_mem x hb)
          c (List.mem_cons_of_mem x hc))
    · intro b hb
      have hb2 := (mem_sortByJs le b xs).mp hb
      exact total x hxmem b (List.mem_cons_of_mem x hb2)
    · intro b hb c hc
      have hb2 := (mem_sortByJs le b xs).mp hb
      have hc2 := (mem_sortByJs le c xs).mp hc
      exact trans x hxmem b (List.mem_cons_of_mem x hb2) c (List.mem_cons_of_mem x hc2)

/-! ### Lemmas about the string comparison -/

theorem cmpChars_eq_iff (s t : List Char) : cmpChars s t = Ordering.eq ↔ s = t := by
  induction s generalizing t with
  | nil => cases t <;> simp [cmpChars]
  | cons a as ih =>
    cases t with
    | nil => simp [cmpChars]
    | cons b bs =>
      simp only [cmpChars]
      by_cases hab : a < b
      · have hne : a ≠ b := ne_of_lt hab
        simp [hab, hne]
      · by_cases hba : b < a
        · have hne : a ≠ b := (ne_of_lt hba).symm
          simp [hab, hba, hne]
        · have hab2 : a = b := le_antisymm (not_lt.mp hba) (not_lt.mp hab)
          subst hab2
          simp [lt_irrefl, ih]

theorem cmpChars_swap (s t : List Char) : cmpChars t s = (cmpChars s t).swap := by
  induction s generalizing t with
  | nil => cases t <;> simp [cmpChars, Ordering.swap]
  | cons a as ih =>
    cases t with
    | nil => simp [cmpChars, Ordering.swap]
    | cons b bs =>
      simp only [cmpChars]
      by_cases hab : a < b
      · simp [hab, asymm hab, Ordering.swap]
      · by_cases hba : b < a
        · simp [hab, hba, Ordering.swap]
        · simp [hab, hba, ih]

theorem cmpChars_notGt_trans {s t u : List Char}
    (h1 : cmpChars s t ≠ Ordering.gt) (h2 : cmpChars t u ≠ Ordering.gt) :
    cmpChars s u ≠ Ordering.gt := by
  induction s generalizing t u with
  | nil => cases u <;> simp [cmpChars]
  | cons a as ih =>
    cases t with
    | nil => simp [cmpChars] at h1
    | cons b bs =>
      cases u with
      | nil => simp [cmpChars] at h2
      | cons c cs =>
        simp only [cmpChars] at h1 h2 ⊢
        by_cases hab : a < b
        · -- a < b, and b <= c in the relevant sense
          by_cases hbc : b < c
          · simp [lt_trans hab hbc]
          · by_cases hcb : c < b
            · simp [hab, hbc, hcb] at h2
            · have hbc2 : b = c := le_antisymm (not_lt.mp hcb) (not_lt.mp hbc)
              simp [hbc2 ▸ hab]
        · by_cases hba : b < a
          · simp [hab, hba] at h1
          · have hab2 : a = b := le_antisymm (not_lt.mp hba) (not_lt.mp hab)
            subst hab2
            by_cases hbc : a < c
            · simp [hbc]
            · by_cases hcb : c < a
              · simp [hbc, hcb] at h2
              · have hac2 : a = c := le_antisymm (not_lt.mp hcb) (not_lt.mp hbc)
                subst hac2
                simp [lt_irrefl] at h1 h2 ⊢
                exact ih h1 h2

theorem strLeB_total (s t : String) : strLeB s t = true ∨ strLeB t s = true := by
  simp only [strLeB, cmpStr]
  rw [cmpChars_swap s.data t.data]
  cases h : cmpChars s.data t.data <;> simp [Ordering.swap]

theorem strLeB_trans {s t u : String} (h1 : strLeB s t = true) (h2 : strLeB t u = true) :
    strLeB s u = true := by
  simp only [strLeB, cmpStr] at h1 h2 ⊢
  have e1 : cmpChars s.data t.data ≠ Ordering.gt := by
    intro h; rw [h] at h1; simp at h1
  have e2 : cmpChars t.data u.data ≠ Ordering.gt := by
    intro h; rw [h] at h2; simp at h2
  have := cmpChars_notGt_trans e1 e2
  cases h : cmpChars s.data u.data <;> simp_all

end SUC

namespace SUC

/-! ### Comparator lemmas for the loader's two sorts -/

theorem cmpStr_swap (s t : String) : cmpStr t s = (cmpStr s t).swap :=
  cmpChars_swap s.data t.data

theorem cmpStr_notGt_trans {s t u : String}
    (h1 : cmpStr s t ≠ Ordering.gt) (h2 : cmpStr t u ≠ Ordering.gt) :
    cmpStr s u ≠ Ordering.gt :=
  cmpChars_notGt_trans h1 h2

theorem routeLE_iff (a b : SUCRoute) : routeLE a b = true ↔ cmpRoute a b ≠ Ordering.gt := by
  unfold routeLE
  cases cmpRoute a b <;> simp

theorem eventLE_iff (a b : SUCEvent) : eventLE a b = true ↔ cmpEvent a b ≠ Ordering.gt := by
  unfold eventLE
  cases cmpEvent a b <;> simp

theorem cmpRoute_swap (a b : SUCRoute) : cmpRoute b a = (cmpRoute a b).swap := by
  unfold cmpRoute
  rcases ha : a.distanceMi with _ | qa <;> rcases hb : b.distanceMi with _ | qb
  · exact cmpStr_swap a.label b.label
  · simp [Ordering.swap]
  · simp [Ordering.swap]
  · by_cases heq : qa = qb
    · subst heq
      simp [cmpStr_swap a.label b.label]
    · have hne2 : qb ≠ qa := fun h => heq h.symm
      rcases lt_or_gt_of_ne heq with hlt | hgt
      · simp [heq, hne2, hlt, asymm hlt, Ordering.swap]
      · simp [heq, hne2, hgt, asymm hgt, Ordering.swap]

theorem cmpEvent_swap (a b : SUCEvent) : cmpEvent b a = (cmpEvent a b).swap := by
  unfold cmpEvent
  rcases ha : extractEventNumber a.eventId with _ | na <;>
    rcases hb : extractEventNumber b.eventId with _ | nb
  · exact cmpStr_swap b.eventId a.eventId
  · exact cmpStr_swap b.eventId a.eventId
  · exact cmpStr_swap b.eventId a.eventId
  · by_cases heq : na = nb
    · subst heq
      simp [cmpStr_swap b.eventId a.eventId]
    · have hne2 : nb ≠ na := fun h => heq h.symm
      rcases lt_or_gt_of_ne heq with hlt | hgt
      · simp [heq, hne2, hlt, asymm hlt, Ordering.swap]
      · simp [heq, hne2, hgt, asymm hgt, Ordering.swap]

theorem routeLE_total (a b : SUCRoute) : routeLE a b = true ∨ routeLE b a = true := by
  simp only [routeLE]
  rw [cmpRoute_swap a b]
  cases h : cmpRoute a b <;> simp [Ordering.swap]

theorem eventLE_total (a b : SUCEvent) : eventLE a b = true ∨ eventLE b a = true := by
  simp only [eventLE]
  rw [cmpEvent_swap a b]
  cases h : cmpEvent a b <;> simp [Ordering.swap]

theorem cmpRoute_some_some {qa qb : ℚ} {a b : SUCRoute}
    (ha : a.distanceMi = some qa) (hb : b.distanceMi = some qb) :
    (cmpRoute a b ≠ Ordering.gt ↔
      (qa < qb ∨ (qa = qb ∧ cmpStr a.label b.label ≠ Ordering.gt))) := by
  unfold cmpRoute
  rw [ha, hb]
  by_cases heq : qa = qb
  · subst heq
    simp [lt_irrefl]
  · rcases lt_or_gt_of_ne heq with hlt | hgt
    · simp [heq, hlt]
    · simp [heq, hgt, asymm hgt]

theorem routeLE_trans (a b c : SUCRoute)
    (h1 : routeLE a b = true) (h2 : routeLE b c = true) : routeLE a c = true := by
  rw [routeLE_iff] at h1 h2 ⊢
  rcases ha : a.distanceMi with _ | qa <;> rcases hb : b.distanceMi with _ | qb <;>
    rcases hc : c.distanceMi with _ | qc
  · simp only [cmpRoute, ha, hb, hc] at h1 h2 ⊢
    exact cmpStr_notGt_trans h1 h2
  · simp only [cmpRoute, ha, hb, hc] at h1 h2 ⊢
    simp at h2
  · simp only [cmpRoute, ha, hb, hc] at h1 h2 ⊢
    simp at h1
  · simp only [cmpRoute, ha, hb, hc] at h1 h2 ⊢
    simp at h1
  · simp only [cmpRoute, ha, hb, hc] at h1 h2 ⊢
    simp
  · simp only [cmpRoute, ha, hb, hc] at h1 h2 ⊢
    simp at h2
  · simp only [cmpRoute, ha, hb, hc] at h1 h2 ⊢
    simp
  · rw [cmpRoute_some_some ha hb] at h1
    rw [cmpRoute_some_some hb hc] at h2
    rw [cmpRoute_some_some ha hc]
    rcases h1 with hlt1 | ⟨heq1, hs1⟩ <;> rcases h2 with hlt2 | ⟨heq2, hs2⟩
    · exact Or.inl (lt_trans hlt1 hlt2)
    · exact Or.inl (heq2 ▸ hlt1)
    · exact Or.inl (heq1 ▸ hlt2)
    · exact Or.inr ⟨heq1.trans heq2, cmpStr_notGt_trans hs1 hs2⟩

theorem cmpEvent_some_some {na nb : ℕ} {a b : SUCEvent}
    (ha : extractEventNumber a.eventId = some na)
    (hb : extractEventNumber b.eventId = some nb) :
    (cmpEvent a b ≠ Ordering.gt ↔
      (nb < na ∨ (na = nb ∧ cmpStr b.eventId a.eventId ≠ Ordering.gt))) := by
  unfold cmpEvent
  rw [ha, hb]
  by_cases heq : na = nb
  · subst heq
    simp [lt_irrefl]
  · rcases lt_or_gt_of_ne heq with hlt | hgt
    · have hne2 : ¬ nb < na := by omega
      simp [heq, hne2]
    · simp [heq, hgt]

theorem eventLE_trans_num (a b c : SUCEvent)
    (ha : (extractEventNumber a.eventId).isSome)
    (hb : (extractEventNumber b.eventId).isSome)
    (hc : (extractEventNumber c.eventId).isSome)
    (h1 : eventLE a b = true) (h2 : eventLE b c = true) : eventLE a c = true := by
  obtain ⟨na, hna⟩ := Option.isSome_iff_exists.mp ha
  obtain ⟨nb, hnb⟩ := Option.isSome_iff_exists.mp hb
  obtain ⟨nc, hnc⟩ := Option.isSome_iff_exists.mp hc
  rw [eventLE_iff] at h1 h2 ⊢
  rw [cmpEvent_some_some hna hnb] at h1
  rw [cmpEvent_some_some hnb hnc] at h2
  rw [cmpEvent_some_some hna hnc]
  rcases h1 with hlt1 | ⟨heq1, hs1⟩ <;> rcases h2 with hlt2 | ⟨heq2, hs2⟩
  · exact Or.inl (lt_trans hlt2 hlt1)
  · exact Or.inl (heq2 ▸ hlt1)
  · exact Or.inl (heq1 ▸ hlt2)
  · exact Or.inr ⟨heq1.trans heq2, cmpStr_notGt_trans hs2 hs1⟩

/-! ### The claim's wording of the two orders agrees with the comparators -/

theorem eventClaimOk_eq (a b : SUCEvent) : eventClaimOk a b = eventLE a b := by
  unfold eventClaimOk eventLE cmpEvent strLeB
  rcases ha : extractEventNumber a.eventId with _ | na <;>
    rcases hb : extractEventNumber b.eventId with _ | nb
  · rfl
  · rfl
  · rfl
  · by_cases heq : na = nb
    · simp [heq]
    · rcases lt_or_gt_of_ne heq with hlt | hgt
      · have : ¬ nb < na := by omega
        simp [heq, this]
      · simp [heq, hgt]

theorem routeClaimOk_eq (a b : SUCRoute) : routeClaimOk a b = routeLE a b := by
  unfold routeClaimOk routeLE cmpRoute strLeB
  rcases ha : a.distanceMi with _ | qa <;> rcases hb : b.distanceMi with _ | qb
  · rfl
  · rfl
  · rfl
  · by_cases heq : qa = qb
    · simp [heq]
    · rcases lt_or_gt_of_ne heq with hlt | hgt
      · simp [heq, hlt]
      · simp [heq, hgt, asymm hgt]

end SUC

namespace SUC

/-! ### The playback interpolation (effect 5) -/

theorem floor_scaled_bounds (n : ℕ) (p : ℚ) (hn : 2 ≤ n) (hp0 : 0 ≤ p) (hp1 : p ≤ 1) :
    0 ≤ ⌊p * ((n : ℚ) - 1)⌋ ∧ ⌊p * ((n : ℚ) - 1)⌋ ≤ (n : ℤ) - 1 := by
  have hn2 : (2 : ℚ) ≤ (n : ℚ) := by exact_mod_cast hn
  have hsc0 : 0 ≤ p * ((n : ℚ) - 1) := mul_nonneg hp0 (by linarith)
  have hscle : p * ((n : ℚ) - 1) ≤ (n : ℚ) - 1 := by
    calc p * ((n : ℚ) - 1) ≤ 1 * ((n : ℚ) - 1) :=
      mul_le_mul_of_nonneg_right hp1 (by linarith)
    _ = (n : ℚ) - 1 := one_mul _
  constructor
  · exact Int.le_floor.mpr (by exact_mod_cast hsc0)
  · have h2 : ⌊p * ((n : ℚ) - 1)⌋ ≤ ⌊(n : ℚ) - 1⌋ := Int.floor_le_floor hscle
    have h3 : ((n : ℚ) - 1) = (((n : ℤ) - 1 : ℤ) : ℚ) := by push_cast; ring
    have h4 : ⌊(n : ℚ) - 1⌋ = (n : ℤ) - 1 := by rw [h3, Int.floor_intCast]
    rw [h4] at h2
    exact h2

theorem jsIndex_map_fin2 (cs : List (ℚ × ℚ)) (i : ℤ) (h0 : 0 ≤ i)
    (hlt : i.toNat < cs.length) :
    jsIndex (cs.map fin2) i = some (fin2 (cs.getD i.toNat (0, 0))) := by
  rw [jsIndex, if_pos h0, List.getElem?_map, List.getElem?_eq_getElem hlt,
    List.getD_eq_getElem cs (0, 0) hlt]
  rfl

theorem playbackFrame_running (cs : List (ℚ × ℚ)) (p : ℚ)
    (h2 : 2 ≤ cs.length) (hp0 : 0 ≤ p) (hp1 : p ≤ 1) :
    playbackFrame (cs.map fin2) true p =
      (some (fin2 (specInterp cs p)), some (CameraCmd.easeTo (specInterp cs p))) := by
  obtain ⟨hf0, hfle⟩ := floor_scaled_bounds cs.length p h2 hp0 hp1
  have hklt : (⌊p * ((cs.length : ℚ) - 1)⌋).toNat < cs.length := by omega
  have hmin0 : (0 : ℤ) ≤ min (⌊p * ((cs.length : ℚ) - 1)⌋ + 1) ((cs.length : ℤ) - 1) := by
    omega
  have hminlt :
      (min (⌊p * ((cs.length : ℚ) - 1)⌋ + 1) ((cs.length : ℤ) - 1)).toNat < cs.length := by
    omega
  have hminNat :
      (min (⌊p * ((cs.length : ℚ) - 1)⌋ + 1) ((cs.length : ℤ) - 1)).toNat
        = min ((⌊p * ((cs.length : ℚ) - 1)⌋).toNat + 1) (cs.length - 1) := by
    omega
  have h1 := jsIndex_map_fin2 cs ⌊p * ((cs.length : ℚ) - 1)⌋ hf0 hklt
  have h2i := jsIndex_map_fin2 cs
    (min (⌊p * ((cs.length : ℚ) - 1)⌋ + 1) ((cs.length : ℤ) - 1)) hmin0 hminlt
  rw [hminNat] at h2i
  simp only [playbackFrame, List.length_map]
  rw [if_neg (by omega), if_neg (by simp)]
  rw [h1, h2i]
  simp only [jsLerp, fin2, jsIsFinite]
  simp only [specInterp, fracBracket, lerp]

theorem specInterp_zero (cs : List (ℚ × ℚ)) :
    specInterp cs 0 = cs.getD 0 (0, 0) := by
  simp [specInterp, fracBracket, lerp]

theorem specInterp_one (cs : List (ℚ × ℚ)) (h2 : 2 ≤ cs.length) :
    specInterp cs 1 = cs.getD (cs.length - 1) (0, 0) := by
  have hcast : (1 : ℚ) * ((cs.length : ℚ) - 1) = (((cs.length : ℤ) - 1 : ℤ) : ℚ) := by
    push_cast; ring
  have htn : ((cs.length : ℤ) - 1).toNat = cs.length - 1 := by omega
  have hmin : min (cs.length - 1 + 1) (cs.length - 1) = cs.length - 1 := by omega
  simp only [specInterp, fracBracket, hcast, Int.floor_intCast, htn, hmin, sub_self, lerp]
  simp

theorem playbackFrame_cases (coords : List Coord) (p : ℚ) :
    playbackFrame coords true p = (none, none)
    ∨ ∃ lng lat, playbackFrame coords true p =
        (some (some lng, some lat), some (CameraCmd.easeTo (lng, lat))) := by
  simp only [playbackFrame]
  split
  · exact Or.inl rfl
  · split
    · rename_i h
      simp at h
    · split
      · split
        · exact Or.inr ⟨_, _, rfl⟩
        · exact Or.inl rfl
      · exact Or.inl rfl

end SUC

namespace SUC

/-! ### Claim C1 -/

/-- Claim C1: for every selected route whose flattened coordinate list has
`N ≥ 2` vertices and every progress `p ∈ [0,1]`, the playback dot emitted by
the map is the linear interpolation between vertex `⌊p(N-1)⌋` and vertex
`min (⌊p(N-1)⌋+1) (N-1)` with fraction `p(N-1) - ⌊p(N-1)⌋` (the rule captured
by `specInterp`); `p = 0` yields exactly the first vertex, `p = 1` exactly the
last vertex, and the route `[[0,0],[0,10]]` at progress `0.5` yields `[0,5]`. -/
theorem C1_playback_dot_interpolation (cs : List (ℚ × ℚ)) (p : ℚ)
    (h2 : 2 ≤ cs.length) (hp0 : 0 ≤ p) (hp1 : p ≤ 1) :
    (playbackFrame (cs.map fin2) true p).1 = some (fin2 (specInterp cs p))
    ∧ (p = 0 →
        (playbackFrame (cs.map fin2) true p).1 = some (fin2 (cs.getD 0 (0, 0))))
    ∧ (p = 1 →
        (playbackFrame (cs.map fin2) true p).1 =
          some (fin2 (cs.getD (cs.length - 1) (0, 0))))
    ∧ (playbackFrame [fin2 (0, 0), fin2 (0, 10)] true (1 / 2)).1 =
        some (fin2 (0, 5)) := by
  have hmain := playbackFrame_running cs p h2 hp0 hp1
  refine ⟨by rw [hmain], ?_, ?_, ?_⟩
  · rintro rfl
    rw [hmain, specInterp_zero cs]
  · rintro rfl
    rw [hmain, specInterp_one cs h2]
  · norm_num [playbackFrame, jsIndex, jsLerp, fin2]

theorem C1_playback_dot_interpolation_witness :
    (playbackFrame [fin2 (0, 0), fin2 (0, 10)] true (1 / 2)).1 =
      some (fin2 (0, 5)) :=
  (C1_playback_dot_interpolation [(0, 0), (0, 10)] (1 / 2) (by decide) (by norm_num)
    (by norm_num)).2.2.2

/-! ### Claim C2 -/

theorem tick_running_eq (s : PlaybackState) (dt : ℚ) (dist : JsNum)
    (speed : PlaybackSpeed) (hrun : s.running = true) :
    tick s dt dist speed =
      if 1 ≤ s.progress + dt / (60 * (jsOr dist 1 / 10) * speedMult speed)
      then { progress := 0, running := false }
      else { progress := s.progress + dt / (60 * (jsOr dist 1 / 10) * speedMult speed),
             running := true } := by
  unfold tick
  rw [hrun]
  simp only [if_neg (by decide : ¬ (true = false))]

/-- Claim C2: while playback is running, a frame advance never decreases the
progress except through the single completion wrap, keeps it in `[0,1]`, and
an advance that would reach or exceed `1` sets the state to
`{progress := 0, running := false}`; once not running, further frames leave
the state unchanged, so there is no oscillation. -/
theorem C2_tick_monotone_and_wraps (s : PlaybackState) (dt : ℚ) (dist : JsNum)
    (speed : PlaybackSpeed) (hrun : s.running = true) (hdt : 0 ≤ dt)
    (hdist : 0 < jsOr dist 1) (hp0 : 0 ≤ s.progress) :
    (s.progress ≤ (tick s dt dist speed).progress ∨
      tick s dt dist speed = { progress := 0, running := false })
    ∧ 0 ≤ (tick s dt dist speed).progress
    ∧ (tick s dt dist speed).progress ≤ 1
    ∧ (1 ≤ s.progress + dt / (60 * (jsOr dist 1 / 10) * speedMult speed) →
        tick s dt dist speed = { progress := 0, running := false })
    ∧ (s.progress + dt / (60 * (jsOr dist 1 / 10) * speedMult speed) < 1 →
        tick s dt dist speed =
          { progress := s.progress + dt / (60 * (jsOr dist 1 / 10) * speedMult speed),
            running := true })
    ∧ (∀ dt2 : ℚ, tick { progress := 0, running := false } dt2 dist speed =
        { progress := 0, running := false }) := by
  have hmult : 0 < speedMult speed := by cases speed <;> norm_num [speedMult]
  have hdur : 0 < 60 * (jsOr dist 1 / 10) * speedMult speed := by positivity
  have hdelta : 0 ≤ dt / (60 * (jsOr dist 1 / 10) * speedMult speed) :=
    div_nonneg hdt hdur.le
  have heq := tick_running_eq s dt dist speed hrun
  by_cases hc : 1 ≤ s.progress + dt / (60 * (jsOr dist 1 / 10) * speedMult speed)
  · rw [heq, if_pos hc]
    refine ⟨Or.inr rfl, le_refl 0, by norm_num, fun _ => rfl, ?_, fun dt2 => rfl⟩
    intro hlt
    exact absurd hc (not_le.mpr hlt)
  · rw [heq, if_neg hc]
    refine ⟨Or.inl (by simpa using hdelta), by simpa using add_nonneg hp0 hdelta,
      le_of_lt (by simpa using not_le.mp hc), fun h => absurd h hc, fun _ => rfl,
      fun dt2 => rfl⟩

theorem C2_tick_monotone_and_wraps_witness :
    ((⟨1/2, true⟩ : PlaybackState).progress ≤
        (tick ⟨1/2, true⟩ 1 (some 10) PlaybackSpeed.med).progress ∨
      tick ⟨1/2, true⟩ 1 (some 10) PlaybackSpeed.med =
        { progress := 0, running := false }) :=
  (C2_tick_monotone_and_wraps ⟨1/2, true⟩ 1 (some 10) PlaybackSpeed.med rfl
    (by norm_num) (by norm_num [jsOr]) (by norm_num)).1

/-! ### Claim C3 -/

/-- Claim C3 counterexample: pausing at progress `3/5` and pressing play again
yields progress `0`, not `3/5` — resuming does NOT continue from the paused
point, because `togglePlayback` rewinds progress to `0` before setting the
running flag. -/
theorem C3_resume_restarts_counterexample :
    togglePlayback { progress := 3/5, running := true }
        (some { id := "r", label := "XL", distanceMi := some 10,
                distanceSeries := [], elevationSeries := [], geojson := none }) =
      { progress := 3/5, running := false }
    ∧ togglePlayback { progress := 3/5, running := false }
        (some { id := "r", label := "XL", distanceMi := some 10,
                distanceSeries := [], elevationSeries := [], geojson := none }) =
      { progress := 0, running := true }
    ∧ (0 : ℚ) ≠ 3/5 := by
  refine ⟨by simp [togglePlayback], by simp [togglePlayback], by norm_num⟩

/-- Claim C3 (amended): pausing mid-route preserves the progress value, but
resuming does not continue from the paused point — toggling playback on always
rewinds progress to `0` first; switching the selected route or event also
resets playback to the start. -/
theorem C3_pause_preserves_resume_restarts (s : PlaybackState) (r : SUCRoute)
    (st : AppState) (routeId eventId : String) :
    (s.running = true →
      togglePlayback s (some r) = { progress := s.progress, running := false })
    ∧ (s.running = false →
      togglePlayback s (some r) = { progress := 0, running := true })
    ∧ (handleRouteSelect st routeId).playback = resetPlayback
    ∧ (handleEventSelect st eventId).playback = resetPlayback := by
  refine ⟨?_, ?_, rfl, rfl⟩
  · intro h
    simp [togglePlayback, h]
  · intro h
    simp [togglePlayback, h]

theorem C3_pause_preserves_resume_restarts_witness :
    togglePlayback { progress := 3/10, running := true }
        (some { id := "r", label := "MED", distanceMi := some 5,
                distanceSeries := [], elevationSeries := [], geojson := none }) =
      { progress := 3/10, running := false } :=
  (C3_pause_preserves_resume_restarts { progress := 3/10, running := true }
    { id := "r", label := "MED", distanceMi := some 5, distanceSeries := [],
      elevationSeries := [], geojson := none }
    { events := [], activeEventId := none, selectedRouteId := none,
      playback := resetPlayback } "r" "e").1 rfl

/-! ### Claim C4 -/

theorem foldl_pickLonger (r0 : SUCRoute) (l : List SUCRoute)
    (h0 : r0.distanceMi.isSome) (hl : ∀ r ∈ l, r.distanceMi.isSome) :
    (l.foldl (fun best r => if jsGt r.distanceMi best.distanceMi then r else best) r0)
        ∈ r0 :: l
    ∧ r0.distanceMi.getD 0 ≤
        (l.foldl (fun best r => if jsGt r.distanceMi best.distanceMi then r else best)
          r0).distanceMi.getD 0
    ∧ ∀ r ∈ l, r.distanceMi.getD 0 ≤
        (l.foldl (fun best r => if jsGt r.distanceMi best.distanceMi then r else best)
          r0).distanceMi.getD 0 := by
  induction l generalizing r0 with
  | nil => simp
  | cons r rest ih =>
    simp only [List.foldl_cons]
    obtain ⟨q0, hq0⟩ := Option.isSome_iff_exists.mp h0
    obtain ⟨qr, hqr⟩ := Option.isSome_iff_exists.mp (hl r (List.mem_cons_self r rest))
    have hrest : ∀ x ∈ rest, x.distanceMi.isSome :=
      fun x hx => hl x (List.mem_cons_of_mem r hx)
    by_cases hcmp : jsGt r.distanceMi r0.distanceMi = true
    · rw [if_pos hcmp]
      obtain ⟨hmem, hge, hall⟩ := ih r (hl r (List.mem_cons_self r rest)) hrest
      have hlt : r0.distanceMi.getD 0 < r.distanceMi.getD 0 := by
        rw [hq0, hqr] at hcmp ⊢
        simpa [jsGt] using hcmp
      refine ⟨List.mem_cons_of_mem r0 hmem, le_trans hlt.le hge, ?_⟩
      intro x hx
      rcases List.mem_cons.mp hx with rfl | hx
      · exact hge
      · exact hall x hx
    · rw [if_neg hcmp]
      obtain ⟨hmem, hge, hall⟩ := ih r0 h0 hrest
      have hler : r.distanceMi.getD 0 ≤ r0.distanceMi.getD 0 := by
        rw [hq0, hqr] at hcmp ⊢
        simpa [jsGt] using hcmp
      refine ⟨?_, hge, ?_⟩
      · rcases List.mem_cons.mp hmem with h | h
        · rw [h]
          exact List.mem_cons_self r0 (r :: rest)
        · exact List.mem_cons_of_mem r0 (List.mem_cons_of_mem r h)
      · intro x hx
        rcases List.mem_cons.mp hx with rfl | hx
        · exact le_trans hler hge
        · exact hall x hx

/-- Claim C4: selecting a route or an event resets playback to
`{progress := 0, running := false}` within the same update; an event switch
selects the event's default route, which is an `"XL"` route when one exists
and otherwise a route of maximal `distanceMi`. -/
theorem C4_switch_resets_and_default_route (st : AppState) (routeId eventId : String)
    (ev : SUCEvent) :
    (handleRouteSelect st routeId).playback = resetPlayback
    ∧ (handleRouteSelect st routeId).selectedRouteId = some routeId
    ∧ (handleEventSelect st eventId).playback = resetPlayback
    ∧ (handleEventSelect st eventId).activeEventId = some eventId
    ∧ (st.events.find? (fun e => e.eventId == eventId) = some ev →
        (handleEventSelect st eventId).selectedRouteId =
          (pickDefaultRoute (some ev)).map (fun r => r.id))
    ∧ (∀ xl ∈ ev.routes, xl.label = "XL" →
        ∃ d, pickDefaultRoute (some ev) = some d ∧ d.label = "XL")
    ∧ (ev.routes ≠ [] → (∀ r ∈ ev.routes, r.label ≠ "XL") →
        (∀ r ∈ ev.routes, r.distanceMi.isSome) →
        ∃ d, pickDefaultRoute (some ev) = some d ∧ d ∈ ev.routes ∧
          ∀ r ∈ ev.routes, r.distanceMi.getD 0 ≤ d.distanceMi.getD 0) := by
  refine ⟨rfl, rfl, rfl, rfl, ?_, ?_, ?_⟩
  · intro h
    simp [handleEventSelect, h]
  · intro xl hmem hxl
    rcases hr : ev.routes with _ | ⟨r0, rest⟩
    · rw [hr] at hmem
      simp at hmem
    · have hfind : ((r0 :: rest).find? (fun r => r.label == "XL")).isSome := by
        rw [List.find?_isSome]
        exact ⟨xl, hr ▸ hmem, by simp [hxl]⟩
      obtain ⟨d, hd⟩ := Option.isSome_iff_exists.mp hfind
      have hdlab : d.label = "XL" := by
        have := List.find?_some hd
        simpa using this
      exact ⟨d, by simp [pickDefaultRoute, hr, hd], hdlab⟩
  · intro hne hnoXL hsome
    rcases hr : ev.routes with _ | ⟨r0, rest⟩
    · exact absurd hr hne
    · have hfind : (r0 :: rest).find? (fun r => r.label == "XL") = none := by
        rw [List.find?_eq_none]
        intro x hx
        simp [hnoXL x (hr ▸ hx)]
      obtain ⟨hmem, hge, hall⟩ := foldl_pickLonger r0 rest
        (hsome r0 (hr ▸ List.mem_cons_self r0 rest))
        (fun x hx => hsome x (hr ▸ List.mem_cons_of_mem r0 hx))
      refine ⟨rest.foldl (fun best r => if jsGt r.distanceMi best.distanceMi then r else best) r0,
        ?_, ?_, ?_⟩
      · simp [pickDefaultRoute, hr, hfind]
      · exact hmem
      · intro r hmemr
        rcases List.mem_cons.mp hmemr with rfl | hmr
        · exact hge
        · exact hall r hmr

theorem C4_switch_resets_and_default_route_witness :
    ∃ d, pickDefaultRoute (some { eventId := "e1", routes :=
        [{ id := "a", label := "MED", distanceMi := some 5, distanceSeries := [],
           elevationSeries := [], geojson := none },
         { id := "b", label := "LRG", distanceMi := some 8, distanceSeries := [],
           elevationSeries := [], geojson := none }] }) = some d
      ∧ d ∈ ({ eventId := "e1", routes :=
        [{ id := "a", label := "MED", distanceMi := some 5, distanceSeries := [],
           elevationSeries := [], geojson := none },
         { id := "b", label := "LRG", distanceMi := some 8, distanceSeries := [],
           elevationSeries := [], geojson := none }] } : SUCEvent).routes
      ∧ ∀ r ∈ ({ eventId := "e1", routes :=
        [{ id := "a", label := "MED", distanceMi := some 5, distanceSeries := [],
           elevationSeries := [], geojson := none },
         { id := "b", label := "LRG", distanceMi := some 8, distanceSeries := [],
           elevationSeries := [], geojson := none }] } : SUCEvent).routes,
          r.distanceMi.getD 0 ≤ d.distanceMi.getD 0 :=
  (C4_switch_resets_and_default_route
    { events := [], activeEventId := none, selectedRouteId := none,
      playback := resetPlayback } "r" "e"
    { eventId := "e1", routes :=
        [{ id := "a", label := "MED", distanceMi := some 5, distanceSeries := [],
           elevationSeries := [], geojson := none },
         { id := "b", label := "LRG", distanceMi := some 8, distanceSeries := [],
           elevationSeries := [], geojson := none }] }).2.2.2.2.2.2
    (by decide) (by decide) (by decide)

/-! ### Claim C7 -/

/-- Claim C7: a route whose flattened list has fewer than 2 vertices never
drives playback — the frame emits no marker point and no camera command; and
whenever an interpolated coordinate would be non-finite the frame is dropped
with nothing emitted (every point actually emitted while running is finite,
and a concrete frame with a `NaN` vertex component emits nothing).  The model
is a total function, so no error can propagate. -/
theorem C7_degenerate_guards :
    (∀ (coords : List Coord) (b : Bool) (p : ℚ), coords.length < 2 →
      playbackFrame coords b p = (none, none))
    ∧ (∀ (coords : List Coord) (p : ℚ) (pt : Coord),
        (playbackFrame coords true p).1 = some pt →
          jsIsFinite pt.1 = true ∧ jsIsFinite pt.2 = true)
    ∧ playbackFrame [(none, some 0), (some 1, some 1)] true 0 = (none, none) := by
  refine ⟨?_, ?_, ?_⟩
  · intro coords b p h
    simp [playbackFrame, h]
  · intro coords p pt h
    rcases playbackFrame_cases coords p with hc | ⟨lng, lat, hc⟩
    · rw [hc] at h
      simp at h
    · rw [hc] at h
      have hpt := Option.some.inj h
      rw [← hpt]
      simp [jsIsFinite]
  · norm_num [playbackFrame, jsIndex, jsLerp]

theorem C7_degenerate_guards_witness :
    playbackFrame [(some 0, some 0)] true (1/2) = (none, none) :=
  (C7_degenerate_guards).1 [(some 0, some 0)] true (1/2) (by decide)

end SUC

namespace SUC

/-! ### Claim C5 -/

theorem specChartInterp_zero (xs ys : List ℚ) :
    specChartInterp xs ys 0 = (xs.getD 0 0, ys.getD 0 0) := by
  simp [specChartInterp, fracBracket, lerp]

theorem specChartInterp_one (xs ys : List ℚ) (h2 : 2 ≤ ys.length) :
    specChartInterp xs ys 1 = (xs.getD (ys.length - 1) 0, ys.getD (ys.length - 1) 0) := by
  have hcast : (1 : ℚ) * ((ys.length : ℚ) - 1) = (((ys.length : ℤ) - 1 : ℤ) : ℚ) := by
    push_cast; ring
  have htn : ((ys.length : ℤ) - 1).toNat = ys.length - 1 := by omega
  have hmin : min (ys.length - 1 + 1) (ys.length - 1) = ys.length - 1 := by omega
  simp only [specChartInterp, fracBracket, hcast, Int.floor_intCast, htn, hmin, sub_self,
    lerp]
  simp

theorem elevationChartDot_eq (dM eM : List ℚ) (p : ℚ)
    (hlen : 1 < dM.length) (heq : dM.length = eM.length) (hp0 : 0 ≤ p) (hp1 : p ≤ 1) :
    elevationChartDot dM eM p =
      some (specChartInterp (dM.map milesFromMeters) (eM.map feetFromMeters) p) := by
  have he2 : 2 ≤ eM.length := by omega
  obtain ⟨hf0, hfle⟩ := floor_scaled_bounds eM.length p he2 hp0 hp1
  have hminNat : (min (⌊p * ((eM.length : ℚ) - 1)⌋ + 1) ((eM.length : ℤ) - 1)).toNat
      = min ((⌊p * ((eM.length : ℚ) - 1)⌋).toNat + 1) (eM.length - 1) := by omega
  simp only [elevationChartDot, List.length_map]
  rw [if_neg (not_not_intro ⟨hlen, heq⟩), if_pos ⟨hp0, hp1, by omega⟩]
  simp only [specChartInterp, fracBracket, List.length_map, hminNat]

/-- Claim C5: the map playback dot and the elevation-chart marker are both
computed by the same fractional-index interpolation rule (`fracBracket`:
index `⌊p(M-1)⌋`, partner `min (index+1) (M-1)`, fraction
`p(M-1) - ⌊p(M-1)⌋`), so for equal progress and equal sample counts the two
markers select the same bracketing index pair and fraction; progress `0`
places the chart marker at the first converted sample and progress `1` at the
last. -/
theorem C5_chart_map_same_rule (cs : List (ℚ × ℚ)) (dM eM : List ℚ) (p : ℚ)
    (hcs : 2 ≤ cs.length) (hlen : 1 < dM.length) (heq : dM.length = eM.length)
    (hp0 : 0 ≤ p) (hp1 : p ≤ 1) :
    (playbackFrame (cs.map fin2) true p).1 = some (fin2 (specInterp cs p))
    ∧ elevationChartDot dM eM p =
        some (specChartInterp (dM.map milesFromMeters) (eM.map feetFromMeters) p)
    ∧ (p = 0 → elevationChartDot dM eM p =
        some ((dM.map milesFromMeters).getD 0 0, (eM.map feetFromMeters).getD 0 0))
    ∧ (p = 1 → elevationChartDot dM eM p =
        some ((dM.map milesFromMeters).getD (dM.length - 1) 0,
          (eM.map feetFromMeters).getD (eM.length - 1) 0)) := by
  have hchart := elevationChartDot_eq dM eM p hlen heq hp0 hp1
  refine ⟨by rw [playbackFrame_running cs p hcs hp0 hp1], hchart, ?_, ?_⟩
  · rintro rfl
    rw [hchart, specChartInterp_zero]
  · rintro rfl
    rw [hchart, specChartInterp_one _ _ (by simp; omega)]
    simp [heq]

theorem C5_chart_map_same_rule_witness :
    elevationChartDot [0, 160934/100] [0, 100] 0 =
      some (([(0 : ℚ), 160934/100].map milesFromMeters).getD 0 0,
        ([(0 : ℚ), 100].map feetFromMeters).getD 0 0) :=
  (C5_chart_map_same_rule [(0, 0), (0, 10)] [0, 160934/100] [0, 100] 0 (by decide)
    (by decide) (by decide) (by norm_num) (by norm_num)).2.2.1 rfl

/-! ### Claim C6 -/

/-- Claim C6 counterexample: with the live sensor active (first argument
`true`) and playback running, the map still issues the playback follow-cam
`easeTo` — the playback-driven camera animation is NOT suppressed while sensor
tracking is active, because effect 5 never consults the GPS flag. -/
theorem C6_camera_not_suppressed_counterexample :
    mapFrameCamera true [fin2 (0, 0), fin2 (0, 10)] true (1 / 2) =
      some (CameraCmd.easeTo (0, 5)) := by
  norm_num [mapFrameCamera, playbackFrame, jsIndex, jsLerp, fin2]

/-- Claim C6 (amended): enabling the live sensor touches only the GPS layer
and GPS source, so the playback marker layer and its source survive; but the
playback-driven camera animation is not suppressed — whenever the running
playback emits a point, the effect issues an `easeTo` to that point regardless
of the sensor state. -/
theorem C6_gps_enable_preserves_playback (m : MapSurface) (id : String)
    (g : Bool) (coords : List Coord) (p : ℚ) (pt : Coord) :
    (id ≠ gpsLayerId → ((id ∈ (gpsEnableBranch m).layers) ↔ id ∈ m.layers))
    ∧ (id ≠ gpsSrcId → ((id ∈ (gpsEnableBranch m).sources) ↔ id ∈ m.sources))
    ∧ ((playbackFrame coords true p).1 = some pt →
        ∃ lng lat, pt = (some lng, some lat) ∧
          mapFrameCamera g coords true p = some (CameraCmd.easeTo (lng, lat))) := by
  refine ⟨?_, ?_, ?_⟩
  · intro hne
    simp only [gpsEnableBranch, cleanupLayerAndSource, removeLayerIf, removeSourceIf]
    split_ifs <;> simp [List.mem_filter, List.mem_append, hne]
  · intro hne
    simp only [gpsEnableBranch, cleanupLayerAndSource, removeLayerIf, removeSourceIf]
    split_ifs <;> simp [List.mem_filter, List.mem_append, hne]
  · intro h
    rcases playbackFrame_cases coords p with hc | ⟨lng, lat, hc⟩
    · rw [hc] at h
      simp at h
    · rw [hc] at h
      have hpt := Option.some.inj h
      exact ⟨lng, lat, hpt.symm, by simp [mapFrameCamera, hc]⟩

theorem C6_gps_enable_preserves_playback_witness :
    (playbackLayerId ∈
        (gpsEnableBranch { layers := [playbackLayerId], sources := [playbackSrcId] }).layers)
      ↔ playbackLayerId ∈
          ({ layers := [playbackLayerId], sources := [playbackSrcId] } : MapSurface).layers :=
  (C6_gps_enable_preserves_playback
    { layers := [playbackLayerId], sources := [playbackSrcId] } playbackLayerId true [] 0
    (none, none)).1 (by decide)

end SUC

namespace SUC

/-! ### Claim C8 -/

theorem range_filter_or_last (m : ℕ) :
    (List.range (m + 1)).filter (fun i => decide (i % 5 = 0 ∨ i = m)) =
      (List.range m).filter (fun i => decide (i % 5 = 0)) ++ [m] := by
  rw [List.range_succ, List.filter_append]
  congr 1
  · refine List.filter_congr ?_
    intro a ha
    have halt : a < m := List.mem_range.mp ha
    simp [Nat.ne_of_lt halt]
  · simp

theorem range_filter_mod5 (m : ℕ) :
    (List.range (m + 1)).filter (fun i => decide (i % 5 = 0)) =
      (List.range m).filter (fun i => decide (i % 5 = 0)) ++
        (if m % 5 = 0 then [m] else []) := by
  rw [List.range_succ, List.filter_append]
  congr 1
  by_cases h5 : m % 5 = 0 <;> simp [h5]

theorem thinCoordinates_eq_specThin5 (cs : List Coord) :
    thinCoordinates cs 5 = specThin5 cs := by
  simp only [thinCoordinates, specThin5]
  by_cases hle : cs.length ≤ 5
  · rw [if_pos hle, if_pos hle]
  · rw [if_neg hle, if_neg hle]
    obtain ⟨m, hm⟩ : ∃ m, cs.length = m + 1 := ⟨cs.length - 1, by omega⟩
    rw [hm]
    simp only [Nat.add_sub_cancel]
    rw [range_filter_or_last m, range_filter_mod5 m, List.map_append, List.map_append]
    by_cases h5 : m % 5 = 0 <;> simp [h5]

/-- Claim C8: the ghost backdrop contains no feature of the active event, each
ghost feature is the thinning (step 5) of one of the catalog's route
`LineString` geometries, and the thinning keeps exactly the vertices at
indices 0, 5, 10, ... plus the final vertex (`specThin5`), leaving lists of at
most 5 vertices unchanged. -/
theorem C8_ghost_excludes_active_and_thins (events : List SUCEvent) (act : String)
    (f : GhostFeature) (cs : List Coord) :
    (f ∈ ghostFeatures events (some act) → f.eventId ≠ act)
    ∧ (f ∈ ghostFeatures events (some act) →
        ∃ ev ∈ events, ∃ r ∈ ev.routes, ∃ g ∈ routeLineStrings r,
          f = { eventId := ev.eventId, coords := thinCoordinates g 5 })
    ∧ thinCoordinates cs 5 = specThin5 cs
    ∧ (cs.length ≤ 5 → thinCoordinates cs 5 = cs) := by
  refine ⟨?_, ?_, thinCoordinates_eq_specThin5 cs, ?_⟩
  · intro hf
    simp only [ghostFeatures] at hf
    have h2 := (List.mem_filter.mp hf).2
    simpa using h2
  · intro hf
    simp only [ghostFeatures] at hf
    have hf2 : f ∈ permanentRoutesFeatures events := (List.mem_filter.mp hf).1
    unfold permanentRoutesFeatures at hf2
    rcases List.mem_flatMap.mp hf2 with ⟨ev, hev, hf3⟩
    rcases List.mem_flatMap.mp hf3 with ⟨r, hr, hf4⟩
    rcases List.mem_map.mp hf4 with ⟨g, hg, hf5⟩
    exact ⟨ev, hev, r, hr, g, hg, hf5.symm⟩
  · intro h
    simp [thinCoordinates, h]

theorem C8_ghost_excludes_active_and_thins_witness :
    thinCoordinates [(none, none)] 5 = [(none, none)] :=
  (C8_ghost_excludes_active_and_thins [] "e" { eventId := "x", coords := [] }
    [(none, none)]).2.2.2 (by decide)

/-! ### Claim C9 -/

theorem bboxFold_fin2 (l : List (ℚ × ℚ)) (w s e n : ℚ) :
    (l.map fin2).foldl bboxExtend
        { west := some w, south := some s, east := some e, north := some n } =
      { west := some ((l.map Prod.fst).foldl min w),
        south := some ((l.map Prod.snd).foldl min s),
        east := some ((l.map Prod.fst).foldl max e),
        north := some ((l.map Prod.snd).foldl max n) } := by
  induction l generalizing w s e n with
  | nil => simp
  | cons c rest ih =>
    simp only [List.map_cons, List.foldl_cons]
    have hb : bboxExtend
        { west := some w, south := some s, east := some e, north := some n } (fin2 c) =
        { west := some (min w c.1), south := some (min s c.2),
          east := some (max e c.1), north := some (max n c.2) } := rfl
    rw [hb]
    exact ih _ _ _ _

/-- Claim C9 (amended): disabling live tracking clears the geolocation watch,
removes the GPS layer and GPS source (and nothing else), and re-frames the
camera on the bounding box of the vertices of the FIRST `LineString` feature
of the selected route's GeoJSON — which is the bounding box of all the route's
vertices exactly when the geometry is that single `LineString` (in particular
for a 4-vertex single-feature route, the bounding box of those 4 vertices). -/
theorem C9_disable_recenters_first_feature (m : MapSurface) (w : Option ℕ)
    (r : SUCRoute) (c0 : ℚ × ℚ) (rest : List (ℚ × ℚ)) (gs : List Geom)
    (hgeo : r.geojson = some (Geom.lineString ((c0 :: rest).map fin2) :: gs)) :
    gpsLayerId ∉ (gpsDisableBranch m w (some r)).1.layers
    ∧ gpsSrcId ∉ (gpsDisableBranch m w (some r)).1.sources
    ∧ (∀ id2, id2 ≠ gpsLayerId →
        ((id2 ∈ (gpsDisableBranch m w (some r)).1.layers) ↔ id2 ∈ m.layers))
    ∧ (∀ id2, id2 ≠ gpsSrcId →
        ((id2 ∈ (gpsDisableBranch m w (some r)).1.sources) ↔ id2 ∈ m.sources))
    ∧ (gpsDisableBranch m w (some r)).2.1 = none
    ∧ ∃ b, (gpsDisableBranch m w (some r)).2.2 = some (CameraCmd.fitBounds b)
        ∧ specVertexBBox (c0 :: rest) = some b := by
  refine ⟨?_, ?_, ?_, ?_, rfl, ?_⟩
  · simp [gpsDisableBranch, cleanupLayerAndSource, removeLayerIf, removeSourceIf,
      List.mem_filter]
  · simp [gpsDisableBranch, cleanupLayerAndSource, removeLayerIf, removeSourceIf,
      List.mem_filter]
  · intro id2 hne
    simp [gpsDisableBranch, cleanupLayerAndSource, removeLayerIf, removeSourceIf,
      List.mem_filter, hne]
  · intro id2 hne
    simp [gpsDisableBranch, cleanupLayerAndSource, removeLayerIf, removeSourceIf,
      List.mem_filter, hne]
  · refine ⟨_, ?_, rfl⟩
    have hinit : bboxExtend (bboxInit (fin2 c0)) (fin2 c0) =
        { west := some c0.1, south := some c0.2, east := some c0.1,
          north := some c0.2 } := by
      simp [bboxInit, bboxExtend, jsMin, jsMax, fin2]
    simp only [gpsDisableBranch, recenterOnSelectedRoute, hgeo, List.head?_cons,
      List.map_cons, List.foldl_cons, hinit]
    rw [bboxFold_fin2]

theorem C9_disable_recenters_first_feature_witness :
    ∃ b, (gpsDisableBranch { layers := [], sources := [] } none
        (some { id := "r", label := "XL", distanceMi := some 10, distanceSeries := [],
                elevationSeries := [],
                geojson := some [Geom.lineString
                  ([((0 : ℚ), (0 : ℚ)), (1, 1), (2, 0), (0, 3)].map fin2)] })).2.2
        = some (CameraCmd.fitBounds b)
      ∧ specVertexBBox [((0 : ℚ), (0 : ℚ)), (1, 1), (2, 0), (0, 3)] = some b :=
  (C9_disable_recenters_first_feature { layers := [], sources := [] } none
    { id := "r", label := "XL", distanceMi := some 10, distanceSeries := [],
      elevationSeries := [],
      geojson := some [Geom.lineString
        ([((0 : ℚ), (0 : ℚ)), (1, 1), (2, 0), (0, 3)].map fin2)] }
    (0, 0) [(1, 1), (2, 0), (0, 3)] [] rfl).2.2.2.2.2

/-- Claim C9 counterexample: for a route whose geometry has two `LineString`
features, the disable branch frames only the first feature's two vertices, not
the bounding box of all 4 route vertices — so "re-frames the camera on the
bounding box of the currently selected route's vertices" fails as stated. -/
theorem C9_first_feature_only_counterexample :
    (gpsDisableBranch { layers := [], sources := [] } none
        (some { id := "r", label := "XL", distanceMi := some 10, distanceSeries := [],
                elevationSeries := [],
                geojson := some [Geom.lineString [fin2 (0, 0), fin2 (1, 1)],
                  Geom.lineString [fin2 (5, 5), fin2 (6, 6)]] })).2.2
      = some (CameraCmd.fitBounds
          { west := some 0, south := some 0, east := some 1, north := some 1 })
    ∧ flattenLineCoords [Geom.lineString [fin2 (0, 0), fin2 (1, 1)],
        Geom.lineString [fin2 (5, 5), fin2 (6, 6)]] =
        [fin2 (0, 0), fin2 (1, 1), fin2 (5, 5), fin2 (6, 6)]
    ∧ specVertexBBox [((0 : ℚ), (0 : ℚ)), (1, 1), (5, 5), (6, 6)] =
        some { west := some 0, south := some 0, east := some 6, north := some 6 }
    ∧ ({ west := some 0, south := some 0, east := some 1, north := some 1 } : BBox) ≠
        { west := some 0, south := some 0, east := some 6, north := some 6 } := by
  decide

end SUC

namespace SUC

/-! ### Claim C10 -/

theorem loadSUCEvents_eq (rows : List RawEventRow) :
    loadSUCEvents rows =
      sortByJs eventLE (rows.map (fun row =>
        { eventId := row.eventId
          routes := sortByJs routeLE (row.routes.filterMap id) : SUCEvent })) := rfl

/-- Claim C10 (amended): provided every `eventId` in the catalog contains a
digit (as the real `"SUC NNN"` ids do), `loadSUCEvents` returns the events
sorted newest-first by the numeric portion of their ids with reverse
lexicographic tiebreak (`eventClaimOk`), as a permutation of the input rows;
and within every event the routes are sorted ascending by `distanceMi` with
non-finite distances last and ties broken by the lexicographic label order
(`routeClaimOk`), as a permutation of the successfully loaded routes.  Without
the digit hypothesis no such order need exist (see the counterexample). -/
theorem C10_catalog_order (rows : List RawEventRow)
    (hnum : ∀ row ∈ rows, (extractEventNumber row.eventId).isSome) :
    (loadSUCEvents rows).Pairwise (fun a b => eventClaimOk a b = true)
    ∧ ((loadSUCEvents rows).map (fun e => e.eventId)).Perm
        (rows.map (fun row => row.eventId))
    ∧ (∀ ev ∈ loadSUCEvents rows,
        ev.routes.Pairwise (fun a b => routeClaimOk a b = true))
    ∧ (∀ ev ∈ loadSUCEvents rows, ∃ row ∈ rows, ev.eventId = row.eventId ∧
        ev.routes.Perm (row.routes.filterMap id)) := by
  rw [loadSUCEvents_eq]
  set mkev : RawEventRow → SUCEvent := fun row =>
    { eventId := row.eventId
      routes := sortByJs routeLE (row.routes.filterMap id) } with hmkev
  have hcat : ∀ e ∈ rows.map mkev, (extractEventNumber e.eventId).isSome := by
    intro e he
    rcases List.mem_map.mp he with ⟨row, hrow, rfl⟩
    exact hnum row hrow
  refine ⟨?_, ?_, ?_, ?_⟩
  · have hp := pairwise_sortByJs eventLE (rows.map mkev)
      (fun a _ b _ => eventLE_total a b)
      (fun a ha b hb c hc h1 h2 =>
        eventLE_trans_num a b c (hcat a ha) (hcat b hb) (hcat c hc) h1 h2)
    exact hp.imp (fun h => by rw [eventClaimOk_eq]; exact h)
  · have hperm := (perm_sortByJs eventLE (rows.map mkev)).map (fun e => e.eventId)
    refine hperm.trans ?_
    rw [List.map_map]
    exact List.Perm.refl _
  · intro ev hev
    have hev2 := (mem_sortByJs eventLE ev (rows.map mkev)).mp hev
    rcases List.mem_map.mp hev2 with ⟨row, hrow, rfl⟩
    have hp := pairwise_sortByJs routeLE (row.routes.filterMap id)
      (fun a _ b _ => routeLE_total a b)
      (fun a _ b _ c _ h1 h2 => routeLE_trans a b c h1 h2)
    exact hp.imp (fun h => by rw [routeClaimOk_eq]; exact h)
  · intro ev hev
    have hev2 := (mem_sortByJs eventLE ev (rows.map mkev)).mp hev
    rcases List.mem_map.mp hev2 with ⟨row, hrow, rfl⟩
    exact ⟨row, hrow, rfl, perm_sortByJs routeLE (row.routes.filterMap id)⟩

theorem C10_catalog_order_witness :
    (loadSUCEvents [{ eventId := "SUC 024", routes := [] },
        { eventId := "SUC 023", routes := [] }]).Pairwise
      (fun a b => eventClaimOk a b = true) :=
  (C10_catalog_order [{ eventId := "SUC 024", routes := [] },
    { eventId := "SUC 023", routes := [] }] (by decide)).1

/-- Claim C10 counterexample: with the mixed catalog `"z9"`, `"ab"`, `"a10"`
(the middle id has no digits), the loader's output is not ordered as the claim
states; moreover NO ordering of these three events satisfies the claimed
relation — the "numeric newest-first, falling back to reverse lexicographic"
relation is cyclic on them, so the failure does not depend on which sorting
algorithm models `Array.prototype.sort`. -/
theorem C10_mixed_ids_counterexample :
    ¬ (loadSUCEvents [{ eventId := "z9", routes := [] },
        { eventId := "ab", routes := [] },
        { eventId := "a10", routes := [] }]).Pairwise
      (fun a b => eventClaimOk a b = true)
    ∧ (∀ l ∈ ([[{ eventId := "z9", routes := [] }, { eventId := "ab", routes := [] },
          { eventId := "a10", routes := [] }],
        [{ eventId := "z9", routes := [] }, { eventId := "a10", routes := [] },
          { eventId := "ab", routes := [] }],
        [{ eventId := "ab", routes := [] }, { eventId := "z9", routes := [] },
          { eventId := "a10", routes := [] }],
        [{ eventId := "ab", routes := [] }, { eventId := "a10", routes := [] },
          { eventId := "z9", routes := [] }],
        [{ eventId := "a10", routes := [] }, { eventId := "z9", routes := [] },
          { eventId := "ab", routes := [] }],
        [{ eventId := "a10", routes := [] }, { eventId := "ab", routes := [] },
          { eventId := "z9", routes := [] }]] : List (List SUCEvent)),
        ¬ l.Pairwise (fun a b => eventClaimOk a b = true)) := by
  decide

end SUC
